import Mathlib

/-!
Verification of the fixed-timestep simulation core of a Breakout/Pong hybrid
(`src/main.rs`, `src/parameters.rs`, `src/types.rs`).

The `f32` scalars of the source are idealised as exact rationals (`ℚ`) in the
computable layer, and as real numbers (`ℝ`) where the source takes square
roots (vector normalisation).  A small `F32` type models the float behaviour
of division by zero (infinity and NaN propagation) where that behaviour is
what a claim is about.
-/

set_option maxRecDepth 4000

/-- Side classification of an axis-aligned collision, after
`bevy::sprite::collide_aabb::Collision`: the side of the collider (second box)
that the ball (first box) struck, with `Inside` the degenerate case. -/
inductive Collision
  | Left
  | Right
  | Top
  | Bottom
  | Inside
deriving DecidableEq

/-- A 2D vector with exact rational components, idealising `glam::Vec2`
(and the x,y part of a `Vec3` after `truncate`). -/
structure Vec2 where
  x : ℚ
  y : ℚ
deriving DecidableEq

/-- Comparison `y_depth.abs() < x_depth.abs()` from
`bevy::sprite::collide_aabb::collide`, where a depth of `none` stands for the
`-f32::INFINITY` sentinel used when an axis produced no Left/Right (resp.
Bottom/Top) classification; its absolute value is plus infinity, which is
never strictly below anything and strictly above every finite value. -/
def absDepthLt : Option ℚ → Option ℚ → Bool
  | none, _ => false
  | some _, none => true
  | some a, some b => decide (|a| < |b|)

/-- Embedding of `bevy::sprite::collide_aabb::collide` (the version vendored
by the bevy release this repository builds against): axis-aligned box overlap
test between box `a` (center `aPos`, full extents `aSize`) and box `b`,
classifying which side of `b` was hit by comparing per-axis penetration
depths.  Returns `none` when the boxes do not strictly overlap. -/
def collide (aPos aSize bPos bSize : Vec2) : Option Collision :=
  let aMinX := aPos.x - aSize.x / 2
  let aMaxX := aPos.x + aSize.x / 2
  let aMinY := aPos.y - aSize.y / 2
  let aMaxY := aPos.y + aSize.y / 2
  let bMinX := bPos.x - bSize.x / 2
  let bMaxX := bPos.x + bSize.x / 2
  let bMinY := bPos.y - bSize.y / 2
  let bMaxY := bPos.y + bSize.y / 2
  if aMinX < bMaxX ∧ aMaxX > bMinX ∧ aMinY < bMaxY ∧ aMaxY > bMinY then
    let xColl : Collision × Option ℚ :=
      if aMinX < bMinX ∧ aMaxX > bMinX ∧ aMaxX < bMaxX then
        (Collision.Left, some (bMinX - aMaxX))
      else if aMinX > bMinX ∧ aMinX < bMaxX ∧ aMaxX > bMaxX then
        (Collision.Right, some (aMinX - bMaxX))
      else
        (Collision.Inside, none)
    let yColl : Collision × Option ℚ :=
      if aMinY < bMinY ∧ aMaxY > bMinY ∧ aMaxY < bMaxY then
        (Collision.Bottom, some (bMinY - aMaxY))
      else if aMinY > bMinY ∧ aMinY < bMaxY ∧ aMaxY > bMaxY then
        (Collision.Top, some (aMinY - bMaxY))
      else
        (Collision.Inside, none)
    if absDepthLt yColl.2 xColl.2 then some yColl.1 else some xColl.1
  else
    none

/-- The reflection step of `check_for_collisions` (src/main.rs lines 534-556):
`reflect_x` / `reflect_y` are set from the classification only when the ball
is moving into the surface on that axis, then the matching velocity component
is negated. -/
def reflectVelocity (collision : Collision) (v : Vec2) : Vec2 :=
  let reflectX : Bool :=
    match collision with
    | Collision.Left => decide (v.x > 0)
    | Collision.Right => decide (v.x < 0)
    | _ => false
  let reflectY : Bool :=
    match collision with
    | Collision.Top => decide (v.y < 0)
    | Collision.Bottom => decide (v.y > 0)
    | _ => false
  { x := if reflectX then -v.x else v.x
  , y := if reflectY then -v.y else v.y }

/-- The speed ramp of `check_for_collisions` (src/main.rs lines 506-508):
`if speed.0 < parameters.ball.max_speed { speed.0 *= 1.01; }` — note that the
result of the multiplication is not clamped to `max_speed`. -/
def rampSpeed (maxSpeed s : ℚ) : ℚ :=
  if s < maxSpeed then s * (101 / 100) else s

/-- The global ball speed after `n` collisions, starting from the configured
`ball.speed = 400.0` with `ball.max_speed = 2000.0` (src/parameters.rs). -/
def rampIter (n : ℕ) : ℚ :=
  (rampSpeed 2000)^[n] 400

/-- Modelled from the spec: the repository calls `WallBundle::new(WallLocation::Left, ..)`
etc. (src/main.rs lines 299-302) and stores `wall_that_gives_points: WallLocation`
per player (src/parameters.rs), but the declaration of the `WallLocation` enum is
not under `src/`; the spec describes walls carrying an optional scoring-player
association.  Variants follow the four call sites. -/
inductive WallLocation
  | Left
  | Right
  | Down
  | Up
deriving DecidableEq

/-- The scoring loop of `check_for_collisions` (src/main.rs lines 513-527):
scan the players' `wall_that_gives_points` in index order; on the first match
with the wall that was hit, increment that player's score (when the index is
inside the scoreboard, as the source's `get_mut` does) and break.  A failed
`get_mut` does not break and the scan continues, as in the source. -/
def scoreLoop (hit : WallLocation) : List WallLocation → ℕ → List ℕ → List ℕ
  | [], _, scores => scores
  | w :: rest, i, scores =>
    if hit = w then
      if h : i < scores.length then scores.set i (scores.get ⟨i, h⟩ + 1)
      else scoreLoop hit rest (i + 1) scores
    else scoreLoop hit rest (i + 1) scores

/-- A collidable entity (wall, brick or paddle) as seen by
`check_for_collisions`: its entity id, transform (translation and scale, the
scale doubling as the collision box size), and its optional `Brick` and
`Wall` components. -/
structure Collider where
  id : ℕ
  pos : Vec2
  size : Vec2
  isBrick : Bool
  wall : Option WallLocation
deriving DecidableEq

/-- The configuration parameters consumed by `check_for_collisions`
(src/parameters.rs): the ball's max speed, duplication probability and
starting position, and the players' scoring walls in player order. -/
structure Params where
  maxSpeed : ℚ
  probDup : ℚ
  startPos : Vec2
  walls : List WallLocation
deriving DecidableEq

/-- The mutable resources and deferred commands threaded through one run of
`check_for_collisions`: the global ball speed, the scoreboard, the number of
collision events sent, the queued (deferred) brick despawns, the queued
(deferred) ball spawns as (position, velocity) pairs, and the number of
random draws consumed so far. -/
structure TickAcc where
  speed : ℚ
  scores : List ℕ
  events : ℕ
  despawns : List ℕ
  spawns : List (Vec2 × Vec2)
  rngIdx : ℕ
deriving DecidableEq

/-- One iteration of the collider loop of `check_for_collisions`
(src/main.rs lines 498-575) for one ball: overlap test via `collide`; on a
collision, ramp the speed, send a collision event, run the wall-scoring loop,
queue the brick despawn, reflect the velocity, and (for a brick, drawing the
next random value) queue a duplicate-ball spawn at the configured starting
position with the post-reflection velocity. -/
def processCollider (P : Params) (rng : ℕ → ℚ) (ballPos ballSize : Vec2)
    (st : Vec2 × TickAcc) (c : Collider) : Vec2 × TickAcc :=
  match collide ballPos ballSize c.pos c.size with
  | none => st
  | some collision =>
    let v := st.1
    let acc := st.2
    let speed' := rampSpeed P.maxSpeed acc.speed
    let events' := acc.events + 1
    let scores' :=
      match c.wall with
      | some hit => scoreLoop hit P.walls 0 acc.scores
      | none => acc.scores
    let despawns' := if c.isBrick then acc.despawns ++ [c.id] else acc.despawns
    let v' := reflectVelocity collision v
    let spawns' :=
      if c.isBrick ∧ rng acc.rngIdx < P.probDup then
        acc.spawns ++ [(P.startPos, v')]
      else acc.spawns
    let rngIdx' := if c.isBrick then acc.rngIdx + 1 else acc.rngIdx
    (v', { speed := speed', scores := scores', events := events'
         , despawns := despawns', spawns := spawns', rngIdx := rngIdx' })

/-- A ball entity as seen by `check_for_collisions`: translation, scale
(doubling as collision box size) and velocity. -/
structure BallEnt where
  pos : Vec2
  size : Vec2
  vel : Vec2
deriving DecidableEq

/-- The collider loop of `check_for_collisions` for a single ball: fold
`processCollider` over all collidable entities in store order. -/
def ballStep (P : Params) (rng : ℕ → ℚ) (colliders : List Collider)
    (b : BallEnt) (acc : TickAcc) : BallEnt × TickAcc :=
  let r := colliders.foldl (processCollider P rng b.pos b.size) (b.vel, acc)
  ({ b with vel := r.1 }, r.2)

/-- The outer loop of `check_for_collisions`: every ball is tested against
every collider; despawns and spawns are only queued (bevy commands are
deferred), so a brick hit by one ball is still present for the next ball in
the same tick. -/
def checkForCollisions (P : Params) (rng : ℕ → ℚ) (balls : List BallEnt)
    (colliders : List Collider) (acc : TickAcc) : List BallEnt × TickAcc :=
  balls.foldl
    (fun st b =>
      let r := ballStep P rng colliders b st.2
      (st.1 ++ [r.1], r.2))
    ([], acc)

/-- Application of the deferred despawn commands queued during
`check_for_collisions`: every entity whose id was queued (once or more) is
removed from the store when the commands are applied at the end of the
system; despawning an id that is no longer present is a no-op (bevy logs a
warning and does nothing). -/
def applyDespawns (store : List Collider) (ids : List ℕ) : List Collider :=
  store.filter (fun c => ! ids.contains c.id)

/-- The players' scoring walls in player order, from the configuration in
`src/parameters.rs`: player 0 scores on the `Right` wall, player 1 on the
`Left` wall. -/
def playersWalls : List WallLocation :=
  [WallLocation.Right, WallLocation.Left]

/-- The collision-relevant configuration of `src/parameters.rs`:
`max_speed = 2000`, `probability_to_duplicate = 0.1`,
`starting_position = (0, -50, -1)` (truncated to 2D), and the players'
scoring walls. -/
def gameParams : Params :=
  { maxSpeed := 2000
  , probDup := 1 / 10
  , startPos := { x := 0, y := -50 }
  , walls := playersWalls }

/-- A fixed pseudo-random stream used for concrete scenarios: every draw
returns one half. -/
def rngHalf : ℕ → ℚ := fun _ => 1 / 2

/-- The resource state at the start of a tick in the concrete scenarios:
configured initial speed 400, two players with zero score, no events and no
queued commands. -/
def accStart : TickAcc :=
  { speed := 400, scores := [0, 0], events := 0
  , despawns := [], spawns := [], rngIdx := 0 }

/-- The game configuration with the duplication probability forced to one. -/
def paramsProbOne : Params :=
  { gameParams with probDup := 1 }

/-- The game configuration with the duplication probability forced to zero. -/
def paramsProbZero : Params :=
  { gameParams with probDup := 0 }

/-- A brick entity (id 7) centred at the origin, used by the two-ball
scenario. -/
def brickAt : Collider :=
  { id := 7, pos := { x := 0, y := 0 }, size := { x := 4, y := 4 }
  , isBrick := true, wall := none }

/-- A far-away scoring wall entity (id 8) that no scenario ball touches. -/
def wallRight : Collider :=
  { id := 8, pos := { x := 100, y := 0 }, size := { x := 4, y := 4 }
  , isBrick := false, wall := some WallLocation.Right }

/-- The scenario collider store: one brick and one wall. -/
def demoStore : List Collider := [brickAt, wallRight]

/-- Two balls overlapping the scenario brick from opposite sides in the same
tick. -/
def twoBalls : List BallEnt :=
  [ { pos := { x := -5/2, y := 0 }, size := { x := 2, y := 2 }
    , vel := { x := 5, y := 0 } }
  , { pos := { x := 5/2, y := 0 }, size := { x := 2, y := 2 }
    , vel := { x := -5, y := 0 } } ]

/-- A brick entity (id 9) sitting to the right of a ball, for the
single-collision duplication scenario. -/
def sideBrick : Collider :=
  { id := 9, pos := { x := 8, y := 0 }, size := { x := 2, y := 2 }
  , isBrick := true, wall := none }

/-- A large brick entity (id 11) that fully contains a small ball, producing
an `Inside` classification. -/
def hugeBrick : Collider :=
  { id := 11, pos := { x := 0, y := 0 }, size := { x := 10, y := 10 }
  , isBrick := true, wall := none }

/-- Length of a 2D real vector, as `glam::Vec2::length` (idealising `f32` as
`ℝ`): the square root of the dot product with itself. -/
noncomputable def length2R (v : ℝ × ℝ) : ℝ :=
  Real.sqrt (v.1 * v.1 + v.2 * v.2)

/-- Embedding of `update_velocity` (src/main.rs lines 455-459) on one
velocity: `velocity = velocity.normalize() * speed.0`, where glam's
`normalize` multiplies the vector by the reciprocal of its length.  Idealised
over `ℝ`, so rounding is exact; the `f32` behaviour at the zero vector is
modelled separately by `updateVelocityF`. -/
noncomputable def updateVelocityR (speed : ℝ) (v : ℝ × ℝ) : ℝ × ℝ :=
  (v.1 / length2R v * speed, v.2 / length2R v * speed)

/-- The loop of `update_velocity`: the normalisation is applied to every
entity with a `Velocity` component (all of which are balls). -/
noncomputable def updateVelocityAll (speed : ℝ) (vs : List (ℝ × ℝ)) : List (ℝ × ℝ) :=
  vs.map (updateVelocityR speed)

/-- A 3D vector with real components, idealising `glam::Vec3` for the paddle
controller. -/
structure Vec3R where
  x : ℝ
  y : ℝ
  z : ℝ

/-- Componentwise vector addition (`glam::Vec3::add`). -/
def vadd (a b : Vec3R) : Vec3R :=
  { x := a.x + b.x, y := a.y + b.y, z := a.z + b.z }

/-- Multiplication of a vector by a scalar (`glam::Vec3::mul` with an `f32`). -/
def vscale (s : ℝ) (a : Vec3R) : Vec3R :=
  { x := s * a.x, y := s * a.y, z := s * a.z }

/-- Componentwise maximum (`glam::Vec3::max`). -/
noncomputable def vmax (a b : Vec3R) : Vec3R :=
  { x := max a.x b.x, y := max a.y b.y, z := max a.z b.z }

/-- Componentwise minimum (`glam::Vec3::min`). -/
noncomputable def vmin (a b : Vec3R) : Vec3R :=
  { x := min a.x b.x, y := min a.y b.y, z := min a.z b.z }

/-- `glam::Vec3::clamp`: `self.max(min).min(max)` componentwise. -/
noncomputable def vclamp (v lo hi : Vec3R) : Vec3R :=
  vmin (vmax v lo) hi

/-- Length of a 3D real vector (`glam::Vec3::length`). -/
noncomputable def length3R (v : Vec3R) : ℝ :=
  Real.sqrt (v.x * v.x + v.y * v.y + v.z * v.z)

open Classical in
/-- `glam::Vec3::normalize_or_zero`: the vector scaled by the reciprocal of
its length when that reciprocal is finite and positive (over `ℝ`: when the
vector is nonzero), and the zero vector otherwise. -/
noncomputable def normalizeOrZero3 (v : Vec3R) : Vec3R :=
  if v = { x := 0, y := 0, z := 0 } then { x := 0, y := 0, z := 0 }
  else vscale (length3R v)⁻¹ v

/-- The effect bound to one control key (src/parameters.rs `Effect`): either
a movement direction or nothing. -/
inductive EffectR
  | Move : Vec3R → EffectR
  | Nothing

/-- One control of a player as seen by `move_players` in a given tick: its
effect, and whether its key is currently pressed. -/
structure ControlR where
  pressed : Bool
  effect : EffectR

/-- One iteration of the control loop of `move_players` (src/main.rs lines
430-439): a pressed `Move` control adds its direction to the accumulated
delta (`none` meaning no movement control has been active so far). -/
def stepDelta (delta : Option Vec3R) (c : ControlR) : Option Vec3R :=
  match c.effect with
  | EffectR.Move dir =>
    if c.pressed then
      match delta with
      | some d => some (vadd d dir)
      | none => some dir
    else delta
  | EffectR.Nothing => delta

/-- Embedding of `move_players` (src/main.rs lines 421-453) for one paddle:
accumulate the active movement directions; if any control was active, move by
the normalised delta scaled by the paddle speed and the fixed timestep, then
clamp the new position componentwise to the paddle's configured bounds;
otherwise the position is untouched. -/
noncomputable def movePlayer (pos : Vec3R) (controls : List ControlR)
    (speed dt : ℝ) (lo hi : Vec3R) : Vec3R :=
  match controls.foldl stepDelta none with
  | none => pos
  | some delta =>
    vclamp (vadd pos (vscale dt (vscale speed (normalizeOrZero3 delta)))) lo hi

/-- Componentwise membership of a point in the box spanned by `lo` and `hi`. -/
def inBounds (lo hi p : Vec3R) : Prop :=
  lo.x ≤ p.x ∧ p.x ≤ hi.x ∧ lo.y ≤ p.y ∧ p.y ≤ hi.y ∧ lo.z ≤ p.z ∧ p.z ≤ hi.z

/-- An `f32` value for the claims that are about float behaviour at zero:
a finite value (exact rational, rounding ignored), an infinity (sign
collapsed, since only zero-versus-nonzero matters here), or NaN. -/
inductive F32
  | fin : ℚ → F32
  | inf
  | nan
deriving DecidableEq

/-- Float addition on `F32`: finite values add exactly, infinity absorbs
finite values, NaN propagates. -/
def F32.add : F32 → F32 → F32
  | F32.fin a, F32.fin b => F32.fin (a + b)
  | F32.fin _, F32.inf => F32.inf
  | F32.inf, F32.fin _ => F32.inf
  | F32.inf, F32.inf => F32.inf
  | _, _ => F32.nan

/-- Float multiplication on `F32`: finite values multiply exactly, zero times
infinity is NaN, a nonzero finite value times infinity is infinity, NaN
propagates. -/
def F32.mul : F32 → F32 → F32
  | F32.fin a, F32.fin b => F32.fin (a * b)
  | F32.fin a, F32.inf => if a = 0 then F32.nan else F32.inf
  | F32.inf, F32.fin b => if b = 0 then F32.nan else F32.inf
  | F32.inf, F32.inf => F32.inf
  | _, _ => F32.nan

/-- Float reciprocal on `F32` (`f32::recip`): the reciprocal of zero is
infinity, the reciprocal of infinity is zero, NaN propagates. -/
def F32.recip : F32 → F32
  | F32.fin a => if a = 0 then F32.inf else F32.fin a⁻¹
  | F32.inf => F32.fin 0
  | F32.nan => F32.nan

/-- Rational square root used by the `F32` model: exact on perfect squares
(in particular at `0`, the only value the zero-velocity claim evaluates it
at), a floor approximation elsewhere. -/
def ratSqrt (q : ℚ) : ℚ :=
  (Int.sqrt q.num : ℚ) / (Nat.sqrt q.den : ℚ)

/-- Float square root on `F32`: NaN on negative values. -/
def F32.sqrtF : F32 → F32
  | F32.fin a => if a < 0 then F32.nan else F32.fin (ratSqrt a)
  | F32.inf => F32.inf
  | F32.nan => F32.nan

/-- `glam::Vec2::length` over the `F32` model. -/
def lengthF (x y : F32) : F32 :=
  F32.sqrtF (F32.add (F32.mul x x) (F32.mul y y))

/-- Embedding of `update_velocity` on one velocity over the `F32` model:
`velocity.normalize() * speed`, where glam's `normalize` is
`self * self.length().recip()` with no guard against a zero-length vector. -/
def updateVelocityF (speed : F32) (v : F32 × F32) : F32 × F32 :=
  let r := F32.recip (lengthF v.1 v.2)
  (F32.mul (F32.mul v.1 r) speed, F32.mul (F32.mul v.2 r) speed)

/-- Setting index `i` then reading index `i` yields the new value. -/
theorem setGet?_self : ∀ (l : List ℕ) (i a : ℕ), i < l.length → (l.set i a).get? i = some a := by
  intro l
  induction l with
  | nil => intro i a h; simp at h
  | cons x xs ih =>
    intro i a h
    cases i with
    | zero => rfl
    | succ n => simpa using ih n a (by simpa using h)

/-- Setting index `i` leaves every other index unchanged. -/
theorem setGet?_other : ∀ (l : List ℕ) (i j a : ℕ), j ≠ i → (l.set i a).get? j = l.get? j := by
  intro l
  induction l with
  | nil => intro i j a _; simp
  | cons x xs ih =>
    intro i j a h
    cases i with
    | zero =>
      cases j with
      | zero => exact absurd rfl h
      | succ m => rfl
    | succ n =>
      cases j with
      | zero => rfl
      | succ m => simpa using ih n m a (fun hc => h (by rw [hc]))

/-- The scoring loop leaves the scoreboard untouched when no scanned wall
matches the wall that was hit. -/
theorem scoreLoop_no_match (hit : WallLocation) :
    ∀ (walls : List WallLocation) (i : ℕ) (scores : List ℕ),
      (∀ w ∈ walls, hit ≠ w) → scoreLoop hit walls i scores = scores := by
  intro walls
  induction walls with
  | nil => intro i scores _; rfl
  | cons w rest ih =>
    intro i scores h
    have hw : ¬ hit = w := h w (List.mem_cons_self w rest)
    simp only [scoreLoop, if_neg hw]
    exact ih (i + 1) scores (fun x hx => h x (List.mem_cons_of_mem w hx))

/-- The scoring loop run from base index `i` with first match at offset `k`
(inside the scoreboard) increments exactly the entry at `i + k`. -/
theorem scoreLoop_first_match (hit : WallLocation) :
    ∀ (walls : List WallLocation) (i k : ℕ) (scores : List ℕ),
      walls.get? k = some hit → (∀ j, j < k → walls.get? j ≠ some hit) →
      i + k < scores.length →
      ∃ a, scores.get? (i + k) = some a ∧
        scoreLoop hit walls i scores = scores.set (i + k) (a + 1) := by
  intro walls
  induction walls with
  | nil => intro i k scores hk _ _; simp at hk
  | cons w rest ih =>
    intro i k scores hk hmin hlen
    by_cases hw : hit = w
    · have hk0 : k = 0 := by
        by_contra hne
        exact hmin 0 (Nat.pos_of_ne_zero hne) (by simp [hw])
      subst hk0
      rw [Nat.add_zero] at hlen ⊢
      refine ⟨scores.get ⟨i, hlen⟩, List.get?_eq_get hlen, ?_⟩
      simp only [scoreLoop, if_pos hw, dif_pos hlen]
    · cases k with
      | zero =>
        have : w = hit := by simpa using hk
        exact absurd this.symm hw
      | succ k' =>
        have hk' : rest.get? k' = some hit := by simpa using hk
        have hmin' : ∀ j, j < k' → rest.get? j ≠ some hit := by
          intro j hj
          have := hmin (j + 1) (by omega)
          simpa using this
        have heq : i + (k' + 1) = (i + 1) + k' := by omega
        rw [heq] at hlen ⊢
        obtain ⟨a, ha, hres⟩ := ih (i + 1) k' scores hk' hmin' hlen
        exact ⟨a, ha, by simp only [scoreLoop, if_neg hw]; exact hres⟩

/-- The scoring loop either leaves the scoreboard untouched or increments
exactly one in-range entry by one. -/
theorem scoreLoop_cases (hit : WallLocation) :
    ∀ (walls : List WallLocation) (i : ℕ) (scores : List ℕ),
      scoreLoop hit walls i scores = scores ∨
      ∃ n a, scores.get? n = some a ∧
        scoreLoop hit walls i scores = scores.set n (a + 1) := by
  intro walls
  induction walls with
  | nil => intro i scores; left; rfl
  | cons w rest ih =>
    intro i scores
    by_cases hw : hit = w
    · by_cases hl : i < scores.length
      · right
        exact ⟨i, scores.get ⟨i, hl⟩, List.get?_eq_get hl,
          by simp only [scoreLoop, if_pos hw, dif_pos hl]⟩
      · simp only [scoreLoop, if_pos hw, dif_neg hl]
        exact ih (i + 1) scores
    · simp only [scoreLoop, if_neg hw]
      exact ih (i + 1) scores

/-- First-match form of the scoring loop from index 0: the matched player's
entry is incremented by one and every other entry is unchanged. -/
theorem scoreLoop_increments (hit : WallLocation) (walls : List WallLocation)
    (scores : List ℕ) (i : ℕ) (hi : walls.get? i = some hit)
    (hmin : ∀ j, j < i → walls.get? j ≠ some hit)
    (hlen : scores.length = walls.length) :
    (scoreLoop hit walls 0 scores).get? i = (scores.get? i).map (· + 1) ∧
    ∀ j, j ≠ i → (scoreLoop hit walls 0 scores).get? j = scores.get? j := by
  have hilen : i < walls.length := (List.get?_eq_some.mp hi).1
  have hlen' : 0 + i < scores.length := by omega
  obtain ⟨a, ha, hres⟩ := scoreLoop_first_match hit walls 0 i scores hi hmin hlen'
  rw [Nat.zero_add] at ha hres
  constructor
  · rw [hres, setGet?_self scores i (a + 1) (by omega), ha]
    rfl
  · intro j hj
    rw [hres, setGet?_other scores i j (a + 1) hj]

/-- A filter and its complement partition a list's length. -/
theorem filter_partition_length (p : Collider → Bool) :
    ∀ l : List Collider,
      (l.filter (fun c => ! p c)).length + (l.filter p).length = l.length := by
  intro l
  induction l with
  | nil => rfl
  | cons a t ih =>
    by_cases h : p a = true
    · simp only [List.filter, h, Bool.not_true, List.length_cons]
      omega
    · simp only [List.filter, Bool.not_eq_true] at h
      simp only [List.filter, h, Bool.not_false, List.length_cons]
      omega

/-- In a store whose entity ids are pairwise distinct, exactly one entity
carries the id of a member entity. -/
theorem filter_id_unique :
    ∀ (store : List Collider) (b : Collider),
      (store.map Collider.id).Nodup → b ∈ store →
      (store.filter (fun c => c.id == b.id)).length = 1 := by
  intro store
  induction store with
  | nil => intro b _ hb; simp at hb
  | cons a rest ih =>
    intro b hnd hb
    simp only [List.map_cons, List.nodup_cons] at hnd
    obtain ⟨ha, hnd'⟩ := hnd
    rcases List.mem_cons.mp hb with rfl | hbr
    · have hzero : rest.filter (fun c => c.id == b.id) = [] := by
        rw [List.filter_eq_nil_iff]
        intro c hc
        have hne : c.id ≠ b.id := by
          intro hcb
          exact ha (hcb ▸ List.mem_map_of_mem Collider.id hc)
        simpa using hne
      simp [List.filter_cons, hzero]
    · have hne : a.id ≠ b.id := by
        intro hab
        exact ha (hab ▸ List.mem_map_of_mem Collider.id hbr)
      have : (a.id == b.id) = false := by simpa using hne
      simp only [List.filter_cons, this]
      exact ih b hnd' hbr

/-- Duplicate despawn requests have no effect beyond the first: despawning is
driven by id membership only. -/
theorem applyDespawns_dedup (store : List Collider) (L : List ℕ) :
    applyDespawns store (L ++ L) = applyDespawns store L := by
  unfold applyDespawns
  apply List.filter_congr
  intro c _
  have : ((L ++ L).contains c.id) = (L.contains c.id) := by
    simp [List.contains, List.elem_eq_mem, List.mem_append]
  rw [this]

/-- The global speed never decreases under the ramp, as long as it is
nonnegative. -/
theorem le_rampSpeed (maxS s : ℚ) (hs : 0 ≤ s) : s ≤ rampSpeed maxS s := by
  unfold rampSpeed
  split_ifs with h
  · nlinarith
  · exact le_refl s

/-- The ramp keeps the speed nonnegative. -/
theorem rampSpeed_nonneg (maxS s : ℚ) (hs : 0 ≤ s) : 0 ≤ rampSpeed maxS s := by
  unfold rampSpeed
  split_ifs
  · nlinarith
  · exact hs

/-- The iterated ramp from the configured start is always nonnegative. -/
theorem rampIter_nonneg (n : ℕ) : 0 ≤ rampIter n := by
  induction n with
  | zero => norm_num [rampIter]
  | succ k ih =>
    rw [rampIter, Function.iterate_succ_apply']
    exact rampSpeed_nonneg 2000 _ ih

/-- Unfolding one step of the iterated ramp. -/
theorem rampIter_succ (n : ℕ) : rampIter (n + 1) = rampSpeed 2000 (rampIter n) := by
  rw [rampIter, Function.iterate_succ_apply']
  rfl

/-- Below the cap the ramp multiplies by the growth factor. -/
theorem rampSpeed_of_lt {maxS s : ℚ} (h : s < maxS) :
    rampSpeed maxS s = s * (101 / 100) := if_pos h

/-- At or above the cap the ramp leaves the speed unchanged. -/
theorem rampSpeed_of_ge {maxS s : ℚ} (h : maxS ≤ s) : rampSpeed maxS s = s :=
  if_neg (not_lt.mpr h)

/-- Once the iterated ramp reaches the cap it never changes again. -/
theorem rampIter_pinned (n : ℕ) (h : 2000 ≤ rampIter n) :
    ∀ k, rampIter (n + k) = rampIter n := by
  intro k
  induction k with
  | zero => rfl
  | succ j ih =>
    have : n + (j + 1) = (n + j) + 1 := rfl
    rw [this, rampIter_succ, ih, rampSpeed_of_ge h]

/-- The iterated ramp is monotone. -/
theorem rampIter_mono (n : ℕ) : rampIter n ≤ rampIter (n + 1) := by
  rw [rampIter_succ]
  exact le_rampSpeed 2000 (rampIter n) (rampIter_nonneg n)

/-- The iterated ramp never exceeds the cap times one growth factor. -/
theorem rampIter_le_cap (n : ℕ) : rampIter n ≤ 2020 := by
  induction n with
  | zero => norm_num [rampIter]
  | succ j ih =>
    rw [rampIter_succ]
    by_cases h : rampIter j < 2000
    · rw [rampSpeed_of_lt h]
      nlinarith
    · rw [rampSpeed_of_ge (not_lt.mp h)]
      exact ih

/-- Every value of the iterated ramp is the starting speed times a power of
the growth factor. -/
theorem rampIter_eq_pow (n : ℕ) :
    ∃ m, rampIter n = 400 * ((101 : ℚ) / 100) ^ m := by
  induction n with
  | zero =>
    exact ⟨0, by norm_num [rampIter]⟩
  | succ j ih =>
    obtain ⟨m, hm⟩ := ih
    by_cases h : rampIter j < 2000
    · refine ⟨m + 1, ?_⟩
      rw [rampIter_succ, rampSpeed_of_lt h, hm]
      ring
    · exact ⟨m, by rw [rampIter_succ, rampSpeed_of_ge (not_lt.mp h), hm]⟩

/-- No power-of-the-growth-factor value equals the cap exactly: that would
force `101 ^ m = 5 * 100 ^ m`, impossible by parity. -/
theorem pow_ramp_ne_cap (m : ℕ) : 400 * ((101 : ℚ) / 100) ^ m ≠ 2000 := by
  intro h
  have h100 : ((100 : ℚ)) ^ m ≠ 0 := by positivity
  rw [div_pow] at h
  have hq : ((101 : ℚ)) ^ m = 5 * 100 ^ m := by
    field_simp at h
    linarith
  have hn : (101 : ℕ) ^ m = 5 * 100 ^ m := by exact_mod_cast hq
  cases m with
  | zero => simp at hn
  | succ k =>
    have heven : Even ((5 : ℕ) * 100 ^ (k + 1)) :=
      (Nat.even_pow.mpr ⟨by decide, Nat.succ_ne_zero k⟩).mul_left 5
    have hodd : ¬ Even ((101 : ℕ) ^ (k + 1)) := by
      rw [Nat.even_pow]
      rintro ⟨h101, -⟩
      exact (by decide : ¬ Even (101 : ℕ)) h101
    rw [hn] at hodd
    exact hodd heven

/-- The iterated ramp never takes the exact value of the cap. -/
theorem rampIter_ne_cap (n : ℕ) : rampIter n ≠ 2000 := by
  obtain ⟨m, hm⟩ := rampIter_eq_pow n
  rw [hm]
  exact pow_ramp_ne_cap m

/-- The iterated ramp eventually exceeds the cap strictly. -/
theorem rampIter_exists_gt : ∃ n, 2000 < rampIter n := by
  have hle : ∃ n, 2000 ≤ rampIter n := by
    by_contra hall
    push_neg at hall
    have hgrow : ∀ n : ℕ, 400 + 4 * (n : ℚ) ≤ rampIter n := by
      intro n
      induction n with
      | zero => norm_num [rampIter]
      | succ j ih =>
        rw [rampIter_succ, rampSpeed_of_lt (hall j)]
        push_cast
        nlinarith
    have := hgrow 400
    have := hall 400
    push_cast at *
    linarith
  obtain ⟨n, hn⟩ := hle
  exact ⟨n, lt_of_le_of_ne hn (fun h => rampIter_ne_cap n h.symm)⟩

/-- Claim C1 counterexample: the speed-ramp update does not clamp its result
to `max_speed` — from speed 1999 (below the cap 2000) a single collision
yields 2018.99, strictly above the cap; accordingly the global speed does
exceed `max_speed` during play and is never equal to exactly 2000. -/
theorem claim_C1_counterexample :
    rampSpeed 2000 1999 = 201899 / 100
  ∧ 2000 < rampSpeed 2000 1999
  ∧ (∃ n, 2000 < rampIter n)
  ∧ (∀ n, rampIter n ≠ 2000) := by
  refine ⟨?_, ?_, rampIter_exists_gt, rampIter_ne_cap⟩
  · rw [rampSpeed_of_lt (by norm_num)]
    norm_num
  · rw [rampSpeed_of_lt (by norm_num)]
    norm_num

/-- Claim C1 (amended): on any ball collision the global speed, when below
`max_speed`, is multiplied by the growth factor 1.01 with no clamping, and
is left unchanged otherwise; it is monotone non-decreasing, bounded by
`max_speed * 1.01` (not by `max_speed`), equals 404 after one collision from
the configured start 400, and eventually pins at a value strictly above
2000 rather than at exactly 2000. -/
theorem claim_C1 (s maxS : ℚ) (hs : 0 ≤ s) (hmax : 0 ≤ maxS) :
    s ≤ rampSpeed maxS s
  ∧ (s < maxS → rampSpeed maxS s = s * (101 / 100))
  ∧ (maxS ≤ s → rampSpeed maxS s = s)
  ∧ (s ≤ maxS → rampSpeed maxS s ≤ maxS * (101 / 100))
  ∧ rampSpeed 2000 400 = 404
  ∧ (∀ n, rampIter n ≤ rampIter (n + 1))
  ∧ (∀ n, rampIter n ≤ 2000 * (101 / 100))
  ∧ (∃ n, 2000 < rampIter n ∧ ∀ k, rampIter (n + k) = rampIter n) := by
  refine ⟨le_rampSpeed maxS s hs, fun h => rampSpeed_of_lt h, fun h => rampSpeed_of_ge h,
    ?_, ?_, rampIter_mono, fun n => by norm_num; exact rampIter_le_cap n, ?_⟩
  · intro hsm
    by_cases h : s < maxS
    · rw [rampSpeed_of_lt h]
      nlinarith
    · rw [rampSpeed_of_ge (not_lt.mp h)]
      nlinarith
  · rw [rampSpeed_of_lt (by norm_num)]
    norm_num
  · obtain ⟨n, hn⟩ := rampIter_exists_gt
    exact ⟨n, hn, rampIter_pinned n hn.le⟩

/-- Witness for claim C1 at the configured start. -/
theorem claim_C1_witness :
    ((0 : ℚ) ≤ 400) ∧ ((0 : ℚ) ≤ 2000)
  ∧ 400 ≤ rampSpeed 2000 400
  ∧ rampSpeed 2000 400 = 404 :=
  ⟨by norm_num, by norm_num,
    (claim_C1 400 2000 (by norm_num) (by norm_num)).1,
    (claim_C1 400 2000 (by norm_num) (by norm_num)).2.2.2.2.1⟩

/-- Normalising a nonzero velocity and rescaling by a nonnegative speed
produces a vector whose length is exactly that speed. -/
theorem length2R_update (s : ℝ) (v : ℝ × ℝ) (hs : 0 ≤ s) (hv : v ≠ (0, 0)) :
    length2R (updateVelocityR s v) = s := by
  have hvv : 0 < v.1 * v.1 + v.2 * v.2 := by
    rcases lt_or_eq_of_le
        (add_nonneg (mul_self_nonneg v.1) (mul_self_nonneg v.2)) with h | h
    · exact h
    · exfalso
      apply hv
      have h1 : v.1 * v.1 = 0 ∧ v.2 * v.2 = 0 :=
        (add_eq_zero_iff_of_nonneg (mul_self_nonneg v.1) (mul_self_nonneg v.2)).mp h.symm
      exact Prod.ext_iff.mpr ⟨mul_self_eq_zero.mp h1.1, mul_self_eq_zero.mp h1.2⟩
  have hLpos : 0 < length2R v := Real.sqrt_pos.mpr hvv
  have hLL : length2R v * length2R v = v.1 * v.1 + v.2 * v.2 := Real.mul_self_sqrt hvv.le
  have key : (v.1 / length2R v * s) * (v.1 / length2R v * s)
      + (v.2 / length2R v * s) * (v.2 / length2R v * s) = s * s := by
    have expand : (v.1 / length2R v * s) * (v.1 / length2R v * s)
        + (v.2 / length2R v * s) * (v.2 / length2R v * s)
        = (v.1 * v.1 + v.2 * v.2) * (s * s) / (length2R v * length2R v) := by
      field_simp
      ring
    rw [expand, hLL, mul_div_cancel_left₀ (s * s) hvv.ne']
  have hform : updateVelocityR s v
      = (v.1 / length2R v * s, v.2 / length2R v * s) := rfl
  rw [hform]
  show Real.sqrt ((v.1 / length2R v * s) * (v.1 / length2R v * s)
      + (v.2 / length2R v * s) * (v.2 / length2R v * s)) = s
  rw [key]
  exact Real.sqrt_mul_self hs

/-- Claim C2: after the Speed Normalizer (the last system of the tick chain)
runs, every ball's velocity has magnitude exactly the global ball speed, for
any nonzero incoming velocities and nonnegative speed; and the reflection
step never turns a nonzero velocity into the zero vector, so normalisation
keeps re-establishing this invariant tick after tick. -/
theorem claim_C2 (s : ℝ) (vs : List (ℝ × ℝ)) (hs : 0 ≤ s)
    (hv : ∀ v ∈ vs, v ≠ ((0 : ℝ), (0 : ℝ))) :
    (∀ w ∈ updateVelocityAll s vs, length2R w = s)
  ∧ (∀ (c : Collision) (u : Vec2), u ≠ ⟨0, 0⟩ → reflectVelocity c u ≠ ⟨0, 0⟩) := by
  constructor
  · intro w hw
    obtain ⟨v, hvmem, rfl⟩ := List.mem_map.mp hw
    exact length2R_update s v hs (hv v hvmem)
  · rintro c ⟨ux, uy⟩ hu hcontra
    apply hu
    have hx := congrArg Vec2.x hcontra
    have hy := congrArg Vec2.y hcontra
    simp only [reflectVelocity] at hx hy
    simp only [Vec2.mk.injEq]
    constructor
    · by_cases h : (ux : ℚ) = 0
      · exact h
      · split_ifs at hx with h'
        · simpa using hx
        · exact hx
    · by_cases h : (uy : ℚ) = 0
      · exact h
      · split_ifs at hy with h'
        · simpa using hy
        · exact hy

/-- Witness for claim C2 at velocity (3,4) and speed 10. -/
theorem claim_C2_witness :
    ((0 : ℝ) ≤ 10)
  ∧ (∀ v ∈ [((3 : ℝ), (4 : ℝ))], v ≠ ((0 : ℝ), (0 : ℝ)))
  ∧ (∀ w ∈ updateVelocityAll 10 [((3 : ℝ), (4 : ℝ))], length2R w = 10) :=
  ⟨by norm_num, by norm_num,
    (claim_C2 10 [((3 : ℝ), (4 : ℝ))] (by norm_num) (by norm_num)).1⟩

/-- Claim C3 counterexample: a ball moving right (vx = 5 > 0) overlapping a
collider and classified `Right` keeps vx unchanged (not vx < 0), while the
same ball classified `Left` has vx reflected (not unchanged) — the claim has
the two sides swapped relative to the code's classification. -/
theorem claim_C3_counterexample :
    collide ⟨17/2, 0⟩ ⟨2, 2⟩ ⟨8, 0⟩ ⟨2, 2⟩ = some Collision.Right
  ∧ reflectVelocity Collision.Right ⟨5, 0⟩ = ⟨5, 0⟩
  ∧ ¬ (reflectVelocity Collision.Right ⟨5, 0⟩).x < 0
  ∧ collide ⟨15/2, 0⟩ ⟨2, 2⟩ ⟨8, 0⟩ ⟨2, 2⟩ = some Collision.Left
  ∧ reflectVelocity Collision.Left ⟨5, 0⟩ ≠ ⟨5, 0⟩ := by
  refine ⟨?_, ?_, ?_, ?_, ?_⟩ <;>
    norm_num [collide, absDepthLt, reflectVelocity, Vec2.mk.injEq]

/-- Claim C3 (amended): for a ball moving right (vx > 0) overlapping a
collider, a collision classified `Left` (the ball struck the collider's left
face) reflects vx to a negative value, and a collision classified `Right`
under the same velocity leaves the velocity unchanged (a departing ball is
not re-reflected): the spec's `Left` and `Right` are swapped. -/
theorem claim_C3 (bp bs cp cs v : Vec2) (hv : 0 < v.x) :
    (collide bp bs cp cs = some Collision.Left →
       (reflectVelocity Collision.Left v).x < 0
     ∧ reflectVelocity Collision.Left v = ⟨-v.x, v.y⟩)
  ∧ (collide bp bs cp cs = some Collision.Right →
       reflectVelocity Collision.Right v = v) := by
  have hnot : ¬ v.x < 0 := not_lt.mpr hv.le
  constructor
  · intro _
    constructor
    · simp only [reflectVelocity]
      simp [hv]
    · simp only [reflectVelocity]
      simp [hv]
  · intro _
    simp only [reflectVelocity]
    simp [hnot]

/-- Witness for claim C3 at the concrete Left-side scenario. -/
theorem claim_C3_witness :
    (0 : ℚ) < (Vec2.mk 5 0).x
  ∧ collide ⟨15/2, 0⟩ ⟨2, 2⟩ ⟨8, 0⟩ ⟨2, 2⟩ = some Collision.Left
  ∧ (reflectVelocity Collision.Left ⟨5, 0⟩).x < 0 :=
  ⟨by norm_num, by norm_num [collide, absDepthLt],
    ((claim_C3 ⟨15/2, 0⟩ ⟨2, 2⟩ ⟨8, 0⟩ ⟨2, 2⟩ ⟨5, 0⟩ (by norm_num)).1
      (by norm_num [collide, absDepthLt])).1⟩

/-- Claim C4: each classification negates at most the single velocity axis
matching the classified side, and only when the ball moves into the surface
on that axis (`Left` needs vx > 0, `Right` vx < 0, `Top` vy < 0, `Bottom`
vy > 0); `Inside` negates neither component, while the collision still
registers: the velocity is returned unchanged but the event is sent, the
speed is ramped, a brick is still queued for despawn and a scoring wall
still runs the scoring scan. -/
theorem claim_C4 (v : Vec2) :
    reflectVelocity Collision.Left v = ⟨if 0 < v.x then -v.x else v.x, v.y⟩
  ∧ reflectVelocity Collision.Right v = ⟨if v.x < 0 then -v.x else v.x, v.y⟩
  ∧ reflectVelocity Collision.Top v = ⟨v.x, if v.y < 0 then -v.y else v.y⟩
  ∧ reflectVelocity Collision.Bottom v = ⟨v.x, if 0 < v.y then -v.y else v.y⟩
  ∧ reflectVelocity Collision.Inside v = v
  ∧ ∀ (P : Params) (rng : ℕ → ℚ) (bp bs : Vec2) (acc : TickAcc) (c : Collider),
      collide bp bs c.pos c.size = some Collision.Inside →
        (processCollider P rng bp bs (v, acc) c).1 = v
      ∧ (processCollider P rng bp bs (v, acc) c).2.events = acc.events + 1
      ∧ (processCollider P rng bp bs (v, acc) c).2.speed = rampSpeed P.maxSpeed acc.speed
      ∧ (c.isBrick = true →
          (processCollider P rng bp bs (v, acc) c).2.despawns = acc.despawns ++ [c.id])
      ∧ (∀ hit, c.wall = some hit →
          (processCollider P rng bp bs (v, acc) c).2.scores = scoreLoop hit P.walls 0 acc.scores) := by
  have hInside : reflectVelocity Collision.Inside v = v := by
    simp [reflectVelocity]
  refine ⟨?_, ?_, ?_, ?_, hInside, ?_⟩
  · simp only [reflectVelocity]
    by_cases h : 0 < v.x <;> simp [h]
  · simp only [reflectVelocity]
    by_cases h : v.x < 0 <;> simp [h]
  · simp only [reflectVelocity]
    by_cases h : v.y < 0 <;> simp [h]
  · simp only [reflectVelocity]
    by_cases h : 0 < v.y <;> simp [h]
  · intro P rng bp bs acc c hcol
    refine ⟨?_, ?_, ?_, ?_, ?_⟩
    · simp [processCollider, hcol, hInside]
    · simp [processCollider, hcol]
    · simp [processCollider, hcol]
    · intro hb
      simp [processCollider, hcol, hb]
    · intro hit hw
      simp [processCollider, hcol, hw]

/-- Witness for claim C4: a small ball fully inside a large brick is
classified `Inside`; its velocity is unchanged while the event, speed ramp
and brick despawn still register. -/
theorem claim_C4_witness :
    collide ⟨0, 0⟩ ⟨2, 2⟩ hugeBrick.pos hugeBrick.size = some Collision.Inside
  ∧ hugeBrick.isBrick = true
  ∧ (processCollider gameParams rngHalf ⟨0, 0⟩ ⟨2, 2⟩ (⟨3, -4⟩, accStart) hugeBrick).1 = ⟨3, -4⟩
  ∧ (processCollider gameParams rngHalf ⟨0, 0⟩ ⟨2, 2⟩ (⟨3, -4⟩, accStart) hugeBrick).2.events
      = accStart.events + 1
  ∧ (processCollider gameParams rngHalf ⟨0, 0⟩ ⟨2, 2⟩ (⟨3, -4⟩, accStart) hugeBrick).2.despawns
      = accStart.despawns ++ [hugeBrick.id] :=
  ⟨by norm_num [collide, absDepthLt, hugeBrick], rfl,
    ((claim_C4 ⟨3, -4⟩).2.2.2.2.2 gameParams rngHalf ⟨0, 0⟩ ⟨2, 2⟩ accStart hugeBrick
      (by norm_num [collide, absDepthLt, hugeBrick])).1,
    ((claim_C4 ⟨3, -4⟩).2.2.2.2.2 gameParams rngHalf ⟨0, 0⟩ ⟨2, 2⟩ accStart hugeBrick
      (by norm_num [collide, absDepthLt, hugeBrick])).2.1,
    ((claim_C4 ⟨3, -4⟩).2.2.2.2.2 gameParams rngHalf ⟨0, 0⟩ ⟨2, 2⟩ accStart hugeBrick
      (by norm_num [collide, absDepthLt, hugeBrick])).2.2.2.1 rfl⟩

/-- Claim C5: evaluation of `update_velocity` at a zero-velocity ball under
the float semantics — glam's `normalize` divides by the zero length, so both
components become NaN; the velocity is NOT left unchanged.  The spec's
defensive zero-vector guard simply does not exist in the code. -/
theorem claim_C5 :
    updateVelocityF (F32.fin 400) (F32.fin 0, F32.fin 0) = (F32.nan, F32.nan)
  ∧ updateVelocityF (F32.fin 400) (F32.fin 0, F32.fin 0) ≠ (F32.fin 0, F32.fin 0) := by
  have heval : updateVelocityF (F32.fin 400) (F32.fin 0, F32.fin 0) = (F32.nan, F32.nan) := by
    norm_num [updateVelocityF, lengthF, F32.mul, F32.add, F32.sqrtF, F32.recip, ratSqrt]
  refine ⟨heval, ?_⟩
  rw [heval]
  simp

/-- Claim C6: with pairwise-distinct entity ids, a brick whose id was queued
for despawn (once or several times) is removed from the store; exactly one
stored entity carries that id; removal accounting matches the number of
distinct queued entities present; and a duplicated despawn queue removes
nothing more than the queue itself. -/
theorem claim_C6 (store : List Collider) (L : List ℕ) (b : Collider)
    (hnd : (store.map Collider.id).Nodup) (hb : b ∈ store)
    (hbL : L.contains b.id = true) :
    b ∉ applyDespawns store L
  ∧ (applyDespawns store L).length
      + (store.filter (fun c => L.contains c.id)).length = store.length
  ∧ (store.filter (fun c => c.id == b.id)).length = 1
  ∧ applyDespawns store (L ++ L) = applyDespawns store L := by
  refine ⟨?_, ?_, filter_id_unique store b hnd hb, applyDespawns_dedup store L⟩
  · intro hmem
    have h2 := (List.mem_filter.mp hmem).2
    rw [hbL] at h2
    simp at h2
  · exact filter_partition_length (fun c => L.contains c.id) store

/-- Witness for claim C6: two balls overlapping the same brick in one tick
queue its despawn twice, yet applying the queue removes the brick exactly
once. -/
theorem claim_C6_witness :
    (checkForCollisions gameParams rngHalf twoBalls demoStore accStart).2.despawns = [7, 7]
  ∧ (demoStore.map Collider.id).Nodup
  ∧ brickAt ∈ demoStore
  ∧ ([7, 7].contains brickAt.id = true)
  ∧ brickAt ∉ applyDespawns demoStore [7, 7] :=
  ⟨by norm_num [checkForCollisions, ballStep, processCollider, collide, absDepthLt,
      reflectVelocity, rampSpeed, gameParams, rngHalf, accStart, demoStore, twoBalls,
      brickAt, wallRight, playersWalls],
   by simp [demoStore, brickAt, wallRight],
   by simp [demoStore],
   by simp [brickAt],
   (claim_C6 demoStore [7, 7] brickAt (by simp [demoStore, brickAt, wallRight])
      (by simp [demoStore]) (by simp [brickAt])).1⟩

/-- Claim C7: when the hit wall is designated by exactly one player, that
player's score is incremented by exactly one and every other score is
unchanged; a wall designated by no player changes no score; and in the
shipped configuration a hit on player 0's scoring wall turns the scoreboard
[0,0] into [1,0]. -/
theorem claim_C7 (walls : List WallLocation) (scores : List ℕ)
    (hit : WallLocation) (i : ℕ) :
    (walls.get? i = some hit → (∀ j, walls.get? j = some hit → j = i) →
       scores.length = walls.length →
         (scoreLoop hit walls 0 scores).get? i = (scores.get? i).map (· + 1)
       ∧ ∀ j, j ≠ i → (scoreLoop hit walls 0 scores).get? j = scores.get? j)
  ∧ ((∀ w ∈ walls, w ≠ hit) → scoreLoop hit walls 0 scores = scores)
  ∧ scoreLoop WallLocation.Right playersWalls 0 [0, 0] = [1, 0] := by
  refine ⟨?_, ?_, rfl⟩
  · intro hi huniq hlen
    have hmin : ∀ j, j < i → walls.get? j ≠ some hit := by
      intro j hj hcontra
      exact absurd (huniq j hcontra) (Nat.ne_of_lt hj)
    exact scoreLoop_increments hit walls scores i hi hmin hlen
  · intro h
    exact scoreLoop_no_match hit walls 0 scores (fun w hw => (h w hw).symm)

/-- Witness for claim C7 in the shipped configuration: player 0's scoring
wall is the right wall and a hit there turns [0,0] into [1,0]. -/
theorem claim_C7_witness :
    playersWalls.get? 0 = some WallLocation.Right
  ∧ ([0, 0] : List ℕ).length = playersWalls.length
  ∧ (scoreLoop WallLocation.Right playersWalls 0 [0, 0]).get? 0
      = (([0, 0] : List ℕ).get? 0).map (· + 1) :=
  ⟨rfl, rfl,
    ((claim_C7 playersWalls [0, 0] WallLocation.Right 0).1 rfl
      (by
        intro j hj
        rcases j with _ | j
        · rfl
        · rcases j with _ | j <;> simp [playersWalls] at hj)
      rfl).1⟩

/-- Claim C8: on a brick collision, a draw strictly below a duplication
probability of 1 (i.e. any draw in [0,1)) spawns exactly one ball, placed at
the configured starting position with exactly the colliding ball's
post-reflection velocity; with probability 0 no draw in [0,1) spawns any. -/
theorem claim_C8 (P : Params) (rng : ℕ → ℚ) (bp bs v : Vec2) (acc : TickAcc)
    (c : Collider) (col : Collision)
    (hcol : collide bp bs c.pos c.size = some col) (hbrick : c.isBrick = true) :
    (P.probDup = 1 → 0 ≤ rng acc.rngIdx → rng acc.rngIdx < 1 →
      (processCollider P rng bp bs (v, acc) c).2.spawns
        = acc.spawns ++ [(P.startPos, reflectVelocity col v)])
  ∧ (P.probDup = 0 → 0 ≤ rng acc.rngIdx →
      (processCollider P rng bp bs (v, acc) c).2.spawns = acc.spawns) := by
  constructor
  · intro hp h0 h1
    simp [processCollider, hcol, hbrick, hp, h1]
  · intro hp h0
    simp [processCollider, hcol, hbrick, hp, not_lt.mpr h0]

/-- Witness for claim C8: a concrete brick collision spawns exactly one ball
at the configured start with probability 1, and none with probability 0. -/
theorem claim_C8_witness :
    collide ⟨15/2, 0⟩ ⟨2, 2⟩ sideBrick.pos sideBrick.size = some Collision.Left
  ∧ sideBrick.isBrick = true
  ∧ paramsProbOne.probDup = 1
  ∧ paramsProbZero.probDup = 0
  ∧ (0 ≤ rngHalf accStart.rngIdx ∧ rngHalf accStart.rngIdx < 1)
  ∧ (processCollider paramsProbOne rngHalf ⟨15/2, 0⟩ ⟨2, 2⟩ (⟨5, 0⟩, accStart) sideBrick).2.spawns
      = accStart.spawns ++ [(paramsProbOne.startPos, reflectVelocity Collision.Left ⟨5, 0⟩)]
  ∧ (processCollider paramsProbZero rngHalf ⟨15/2, 0⟩ ⟨2, 2⟩ (⟨5, 0⟩, accStart) sideBrick).2.spawns
      = accStart.spawns :=
  ⟨by norm_num [collide, absDepthLt, sideBrick], rfl, rfl, rfl,
   ⟨by norm_num [rngHalf], by norm_num [rngHalf]⟩,
   (claim_C8 paramsProbOne rngHalf ⟨15/2, 0⟩ ⟨2, 2⟩ ⟨5, 0⟩ accStart sideBrick Collision.Left
      (by norm_num [collide, absDepthLt, sideBrick]) rfl).1 rfl
      (by norm_num [rngHalf]) (by norm_num [rngHalf]),
   (claim_C8 paramsProbZero rngHalf ⟨15/2, 0⟩ ⟨2, 2⟩ ⟨5, 0⟩ accStart sideBrick Collision.Left
      (by norm_num [collide, absDepthLt, sideBrick]) rfl).2 rfl
      (by norm_num [rngHalf])⟩

/-- With no pressed movement control, the accumulated delta stays empty. -/
theorem foldl_stepDelta_none : ∀ controls : List ControlR,
    (∀ c ∈ controls, c.pressed = true → ∀ d, c.effect ≠ EffectR.Move d) →
    controls.foldl stepDelta none = none := by
  intro controls
  induction controls with
  | nil => intro _; rfl
  | cons c rest ih =>
    intro h
    have hc : stepDelta none c = none := by
      cases heff : c.effect with
      | Move d =>
        cases hp : c.pressed with
        | false => simp [stepDelta, heff, hp]
        | true => exact absurd heff (h c (List.mem_cons_self c rest) hp d)
      | Nothing => simp [stepDelta, heff]
    rw [List.foldl_cons, hc]
    exact ih (fun x hx => h x (List.mem_cons_of_mem c hx))

/-- The componentwise clamp lands inside the box whenever the box is
nonempty. -/
theorem vclamp_inBounds (w lo hi : Vec3R) (hx : lo.x ≤ hi.x) (hy : lo.y ≤ hi.y)
    (hz : lo.z ≤ hi.z) : inBounds lo hi (vclamp w lo hi) := by
  unfold inBounds vclamp vmin vmax
  exact ⟨le_min (le_max_right w.x lo.x) hx, min_le_right _ _,
    le_min (le_max_right w.y lo.y) hy, min_le_right _ _,
    le_min (le_max_right w.z lo.z) hz, min_le_right _ _⟩

/-- Claim C9: for every input set, a paddle starting inside its configured
(nonempty) movement bounds remains componentwise inside them after the
paddle controller runs; and with no active movement control the paddle does
not move at all. -/
theorem claim_C9 (pos lo hi : Vec3R) (controls : List ControlR) (speed dt : ℝ) :
    (lo.x ≤ hi.x → lo.y ≤ hi.y → lo.z ≤ hi.z → inBounds lo hi pos →
       inBounds lo hi (movePlayer pos controls speed dt lo hi))
  ∧ ((∀ c ∈ controls, c.pressed = true → ∀ d, c.effect ≠ EffectR.Move d) →
       movePlayer pos controls speed dt lo hi = pos) := by
  constructor
  · intro hx hy hz hpos
    unfold movePlayer
    cases hfold : controls.foldl stepDelta none with
    | none => simp only [hfold]; exact hpos
    | some d => simp only [hfold]; exact vclamp_inBounds _ lo hi hx hy hz
  · intro h
    unfold movePlayer
    rw [foldl_stepDelta_none controls h]

/-- Witness for claim C9 with one active up-control and with no control. -/
theorem claim_C9_witness :
    ((Vec3R.mk (-100) (-100) 0).x ≤ (Vec3R.mk 100 100 0).x)
  ∧ ((Vec3R.mk (-100) (-100) 0).y ≤ (Vec3R.mk 100 100 0).y)
  ∧ ((Vec3R.mk (-100) (-100) 0).z ≤ (Vec3R.mk 100 100 0).z)
  ∧ inBounds (Vec3R.mk (-100) (-100) 0) (Vec3R.mk 100 100 0) (Vec3R.mk 0 0 0)
  ∧ inBounds (Vec3R.mk (-100) (-100) 0) (Vec3R.mk 100 100 0)
      (movePlayer (Vec3R.mk 0 0 0)
        [{ pressed := true, effect := EffectR.Move (Vec3R.mk 0 1 0) }] 500 (1/64)
        (Vec3R.mk (-100) (-100) 0) (Vec3R.mk 100 100 0))
  ∧ movePlayer (Vec3R.mk 0 0 0) [] 500 (1/64)
      (Vec3R.mk (-100) (-100) 0) (Vec3R.mk 100 100 0) = Vec3R.mk 0 0 0 :=
  ⟨by norm_num, by norm_num, by norm_num, by norm_num [inBounds],
   (claim_C9 (Vec3R.mk 0 0 0) (Vec3R.mk (-100) (-100) 0) (Vec3R.mk 100 100 0)
      [{ pressed := true, effect := EffectR.Move (Vec3R.mk 0 1 0) }] 500 (1/64)).1
     (by norm_num) (by norm_num) (by norm_num) (by norm_num [inBounds]),
   (claim_C9 (Vec3R.mk 0 0 0) (Vec3R.mk (-100) (-100) 0) (Vec3R.mk 100 100 0)
      [] 500 (1/64)).2 (by simp)⟩

/-- Claim C10: one wall hit increments at most one scoreboard entry; the
receiving player is the lowest-indexed one whose designated wall matches
(scan in index order with an early break), and when two players designate
the same wall only the first scores: [0,0] becomes [1,0]. -/
theorem claim_C10 (walls : List WallLocation) (scores : List ℕ)
    (hit : WallLocation) (i : ℕ) :
    (∀ j k, (scoreLoop hit walls 0 scores).get? j ≠ scores.get? j →
            (scoreLoop hit walls 0 scores).get? k ≠ scores.get? k → j = k)
  ∧ (walls.get? i = some hit → (∀ j, j < i → walls.get? j ≠ some hit) →
       scores.length = walls.length →
         (scoreLoop hit walls 0 scores).get? i = (scores.get? i).map (· + 1)
       ∧ ∀ j, j ≠ i → (scoreLoop hit walls 0 scores).get? j = scores.get? j)
  ∧ scoreLoop WallLocation.Right [WallLocation.Right, WallLocation.Right] 0 [0, 0]
      = [1, 0] := by
  refine ⟨?_, ?_, rfl⟩
  · intro j k hj hk
    rcases scoreLoop_cases hit walls 0 scores with h | ⟨n, a, _, h⟩
    · rw [h] at hj
      exact absurd rfl hj
    · rw [h] at hj hk
      by_cases hjn : j = n
      · by_cases hkn : k = n
        · rw [hjn, hkn]
        · exact absurd (setGet?_other scores n k (a + 1) hkn) hk
      · exact absurd (setGet?_other scores n j (a + 1) hjn) hj
  · intro hi hmin hlen
    exact scoreLoop_increments hit walls scores i hi hmin hlen

/-- Witness for claim C10 with two players designating the same wall: only
the lowest-indexed player scores. -/
theorem claim_C10_witness :
    ([WallLocation.Right, WallLocation.Right].get? 0 = some WallLocation.Right)
  ∧ (([0, 0] : List ℕ).length = [WallLocation.Right, WallLocation.Right].length)
  ∧ (scoreLoop WallLocation.Right [WallLocation.Right, WallLocation.Right] 0 [0, 0]).get? 0
      = (([0, 0] : List ℕ).get? 0).map (· + 1)
  ∧ ∀ j, j ≠ 0 →
      (scoreLoop WallLocation.Right [WallLocation.Right, WallLocation.Right] 0 [0, 0]).get? j
        = (([0, 0] : List ℕ)).get? j :=
  ⟨rfl, rfl,
   ((claim_C10 [WallLocation.Right, WallLocation.Right] [0, 0] WallLocation.Right 0).2.1 rfl
      (fun j hj => absurd hj (Nat.not_lt_zero j)) rfl).1,
   ((claim_C10 [WallLocation.Right, WallLocation.Right] [0, 0] WallLocation.Right 0).2.1 rfl
      (fun j hj => absurd hj (Nat.not_lt_zero j)) rfl).2⟩
